import Mathlib

/-!
Shallow embedding of the `thence` event-sourced supervisor core
(event rows, projector, transition validator, policy bridge, scheduler,
lease orphan evaluation, event-store dedupe, supervisor loop tail).
-/

/-- Minimal JSON value model for `serde_json::Value` payloads. -/
inductive Json where
  | null : Json
  | bool : Bool → Json
  | str : String → Json
  | int : Int → Json
  | arr : List Json → Json
  | obj : List (String × Json) → Json
deriving Repr

/-- `Value::get(key)` on an object; `None` on any other variant. -/
def Json.get : Json → String → Option Json
  | .obj fields, k => fields.lookup k
  | _, _ => none

/-- `Value::as_str`. -/
def Json.asStr : Json → Option String
  | .str s => some s
  | _ => none

/-- `Value::as_bool`. -/
def Json.asBool : Json → Option Bool
  | .bool b => some b
  | _ => none

/-- `Value::as_array`. -/
def Json.asArr : Json → Option (List Json)
  | .arr a => some a
  | _ => none

/-- Extract the strings of a JSON array, dropping non-strings
(`iter().filter_map(|v| v.as_str())`). -/
def Json.strList (j : Json) : List String :=
  (j.asArr.getD []).filterMap Json.asStr

/-- Row stored in the `events` table (`EventRow` in `events/mod.rs`). -/
structure EventRow where
  seq : Int
  run_id : String
  ts : String
  event_type : String
  task_id : Option String
  actor_role : Option String
  actor_id : Option String
  attempt : Option Int
  payload_json : Json
  dedupe_key : Option String

/-- Event to be appended (`NewEvent` in `events/mod.rs`). -/
structure NewEvent where
  event_type : String
  task_id : Option String
  actor_role : Option String
  actor_id : Option String
  attempt : Option Int
  payload_json : Json
  dedupe_key : Option String

/-- `NewEvent::simple`: only event type and payload are set. -/
def NewEvent.simple (event_type : String) (payload_json : Json) : NewEvent :=
  { event_type := event_type, task_id := none, actor_role := none,
    actor_id := none, attempt := none, payload_json := payload_json,
    dedupe_key := none }

/-- Forgets the store-assigned columns of a row, giving back the
appended `NewEvent` (used to re-validate a stored history). -/
def EventRow.toNewEvent (ev : EventRow) : NewEvent :=
  { event_type := ev.event_type, task_id := ev.task_id,
    actor_role := ev.actor_role, actor_id := ev.actor_id,
    attempt := ev.attempt, payload_json := ev.payload_json,
    dedupe_key := ev.dedupe_key }

/-- Per-task derived state (`TaskProjection` in `events/projector.rs`).
The `HashSet<i64>` fields are modelled as lists used only through
membership. -/
structure TaskProjection where
  id : String := ""
  objective : String := ""
  acceptance : String := ""
  dependencies : List String := []
  required_checks : List String := []
  attempts : Int := 0
  claimed : Bool := false
  latest_attempt : Int := 0
  review_approved_attempts : List Int := []
  checks_passed_attempts : List Int := []
  unresolved_findings_attempts : List Int := []
  merged_attempts : List Int := []
  closed : Bool := false
  terminal_failed : Bool := false
deriving Repr, DecidableEq

/-- Run-level derived state (`RunProjection` in `events/projector.rs`).
`tasks : BTreeMap<String, TaskProjection>` and
`open_questions : HashMap<String, String>` are modelled as association
lists; no claim below depends on the iteration order of either map. -/
structure RunProjection where
  run_id : String := ""
  spec_approved : Bool := false
  checks_approved : Bool := false
  checks_commands : List String := []
  paused : Bool := false
  terminal : Option String := none
  tasks : List (String × TaskProjection) := []
  open_questions : List (String × String) := []
deriving Repr, DecidableEq

/-- Lookup of the first entry with the given key (maps have at most one). -/
def findEntry {α : Type} : List (String × α) → String → Option α
  | [], _ => none
  | (k, v) :: rest, key => if k = key then some v else findEntry rest key

/-- Update the entry at a key in place (`tasks.get_mut(id)` followed by
mutation); the map is unchanged when the key is absent. -/
def updateEntry {α : Type} : List (String × α) → String → (α → α) → List (String × α)
  | [], _, _ => []
  | (k, v) :: rest, key, f =>
    if k = key then (k, f v) :: rest else (k, v) :: updateEntry rest key f

/-- First-write-wins insertion (`tasks.entry(id).or_insert(t)`). -/
def insertIfAbsent {α : Type} (l : List (String × α)) (key : String) (v : α) :
    List (String × α) :=
  if (findEntry l key).isSome then l else l ++ [(key, v)]

/-- `HashMap::insert` (replaces the value when the key exists). -/
def mapInsert (l : List (String × String)) (key v : String) :
    List (String × String) :=
  if (findEntry l key).isSome then
    l.map (fun p => if p.1 = key then (key, v) else p)
  else l ++ [(key, v)]

/-- `HashMap::remove`. -/
def mapRemove (l : List (String × String)) (key : String) :
    List (String × String) :=
  l.filter (fun p => p.1 ≠ key)

/-- `HashSet::insert` up to membership. -/
def setInsert (l : List Int) (a : Int) : List Int :=
  if a ∈ l then l else a :: l

/-- `HashSet::remove` up to membership. -/
def setRemove (l : List Int) (a : Int) : List Int :=
  l.filter (fun x => x ≠ a)

/-- Strings of the JSON array at a payload key;
`payload.get(k).and_then(as_array)` followed by collecting the
`as_str` elements, with `unwrap_or_default`. -/
def payloadStrList (p : Json) (k : String) : List String :=
  (((p.get k).bind Json.asArr).getD []).filterMap Json.asStr

/-- One fold step of the projector (`RunProjection::apply_event` in
`events/projector.rs`), with the match arms in source order. -/
def applyEvent (s0 : RunProjection) (ev : EventRow) : RunProjection :=
  let s := { s0 with run_id := ev.run_id }
  if ev.event_type = "task_registered" then
    match ev.task_id.orElse (fun _ => (ev.payload_json.get "task_id").bind Json.asStr) with
    | some task_id =>
      let objective := (((ev.payload_json.get "objective").bind Json.asStr)).getD ""
      let deps := payloadStrList ev.payload_json "dependencies"
      let acceptance := (((ev.payload_json.get "acceptance").bind Json.asStr)).getD ""
      let checks := payloadStrList ev.payload_json "checks"
      let entry : TaskProjection :=
        { id := task_id, objective := objective, acceptance := acceptance,
          dependencies := deps, required_checks := checks }
      { s with tasks := insertIfAbsent s.tasks task_id entry }
    | none => s
  else if ev.event_type = "spec_approved" then
    { s with spec_approved := true }
  else if ev.event_type = "checks_approved" then
    { s with checks_approved := true,
             checks_commands := payloadStrList ev.payload_json "commands" }
  else if ev.event_type = "run_paused" ∨ ev.event_type = "human_input_requested" then
    { s with paused := true }
  else if ev.event_type = "run_resumed" then
    { s with paused := false }
  else if ev.event_type = "spec_question_opened" ∨ ev.event_type = "checks_question_opened" then
    match (ev.payload_json.get "question_id").bind Json.asStr with
    | some qid =>
      let q := (((ev.payload_json.get "question").bind Json.asStr)).getD ""
      { s with open_questions := mapInsert s.open_questions qid q }
    | none => s
  else if ev.event_type = "spec_question_resolved" ∨ ev.event_type = "checks_question_resolved" then
    match (ev.payload_json.get "question_id").bind Json.asStr with
    | some qid => { s with open_questions := mapRemove s.open_questions qid }
    | none => s
  else if ev.event_type = "task_claimed" then
    match ev.task_id with
    | some id =>
      { s with tasks := updateEntry s.tasks id (fun t =>
          { t with claimed := true, attempts := t.attempts + 1,
                   latest_attempt := ev.attempt.getD (t.attempts + 1) }) }
    | none => s
  else if ev.event_type = "review_found_issues" then
    match ev.task_id with
    | some id =>
      { s with tasks := updateEntry s.tasks id (fun t =>
          { t with claimed := false,
                   unresolved_findings_attempts :=
                     setInsert t.unresolved_findings_attempts
                       (ev.attempt.getD t.latest_attempt) }) }
    | none => s
  else if ev.event_type = "review_approved" then
    match ev.task_id with
    | some id =>
      { s with tasks := updateEntry s.tasks id (fun t =>
          let a := ev.attempt.getD t.latest_attempt
          { t with review_approved_attempts := setInsert t.review_approved_attempts a,
                   unresolved_findings_attempts :=
                     setRemove t.unresolved_findings_attempts a }) }
    | none => s
  else if ev.event_type = "checks_reported" then
    match ev.task_id with
    | some id =>
      { s with tasks := updateEntry s.tasks id (fun t =>
          let a := ev.attempt.getD t.latest_attempt
          if (((ev.payload_json.get "passed").bind Json.asBool)).getD false then
            { t with checks_passed_attempts := setInsert t.checks_passed_attempts a }
          else
            { t with checks_passed_attempts := setRemove t.checks_passed_attempts a }) }
    | none => s
  else if ev.event_type = "merge_succeeded" then
    match ev.task_id with
    | some id =>
      { s with tasks := updateEntry s.tasks id (fun t =>
          { t with merged_attempts :=
              setInsert t.merged_attempts (ev.attempt.getD t.latest_attempt) }) }
    | none => s
  else if ev.event_type = "task_closed" then
    match ev.task_id with
    | some id =>
      { s with tasks := updateEntry s.tasks id (fun t =>
          { t with closed := true, claimed := false }) }
    | none => s
  else if ev.event_type = "task_failed_terminal" then
    match ev.task_id with
    | some id =>
      { s with tasks := updateEntry s.tasks id (fun t =>
          { t with terminal_failed := true, claimed := false }) }
    | none => s
  else if ev.event_type = "attempt_interrupted" then
    match ev.task_id with
    | some id =>
      { s with tasks := updateEntry s.tasks id (fun t =>
          { t with claimed := false }) }
    | none => s
  else if ev.event_type = "run_completed" ∨ ev.event_type = "run_failed"
      ∨ ev.event_type = "run_cancelled" then
    { s with terminal := some ev.event_type }
  else
    s

/-- Pure fold of a history (`RunProjection::replay`). -/
def RunProjection.replay (events : List EventRow) : RunProjection :=
  events.foldl applyEvent {}

/-- Terminal event tags (`TERMINAL_EVENTS` in `run/transitions.rs`). -/
def TERMINAL_EVENTS : List String := ["run_completed", "run_failed", "run_cancelled"]

/-- Final guard of `validate_transition`: a `checks_approved` event must
carry a non-empty `commands` array in its payload. -/
def checksApprovedGuard (next : NewEvent) : Except String Unit :=
  if next.event_type == "checks_approved" then
    let has_commands :=
      (((next.payload_json.get "commands").bind Json.asArr).map
        (fun arr => !arr.isEmpty)).getD false
    if !has_commands then
      .error "invalid transition: checks_approved requires non-empty commands"
    else .ok ()
  else .ok ()

/-- Pre-append guard (`validate_transition` in `run/transitions.rs`);
the checks appear in source order and the first failing check's error
message is returned. -/
def validateTransition (history : List EventRow) (next : NewEvent) :
    Except String Unit :=
  let state := RunProjection.replay history
  if state.terminal.isSome && !(TERMINAL_EVENTS.contains next.event_type) then
    .error "invalid transition: run already terminal"
  else if TERMINAL_EVENTS.contains next.event_type
      && history.any (fun ev => TERMINAL_EVENTS.contains ev.event_type) then
    .error "invalid transition: run terminal event already exists"
  else if (next.event_type == "task_claimed" || next.event_type == "merge_succeeded")
      && (state.paused || !state.open_questions.isEmpty) then
    .error "invalid transition: run paused or human input pending"
  else
    let afterClaim : Except String Unit :=
      if next.event_type == "task_claimed" then
        match next.task_id with
        | none => .error "task_claimed missing task_id"
        | some task_id =>
          match findEntry state.tasks task_id with
          | none => .error "task_claimed references unknown task"
          | some task =>
            if !state.spec_approved || !state.checks_approved
                || !state.open_questions.isEmpty || state.paused then
              .error "invalid transition: cannot claim before spec approval/unpaused run"
            else if task.closed || task.terminal_failed then
              .error "invalid transition: task already terminal"
            else .ok ()
      else .ok ()
    match afterClaim with
    | .error e => .error e
    | .ok _ =>
      if next.event_type == "review_approved" && next.actor_role == some "implementer" then
        .error "invalid transition: implementer cannot approve review"
      else if next.event_type == "merge_succeeded" && next.actor_role == some "reviewer" then
        .error "invalid transition: reviewer cannot emit merge events"
      else if next.event_type == "task_closed" then
        match next.task_id with
        | none => .error "task_closed missing task_id"
        | some task_id =>
          match next.attempt with
          | none => .error "task_closed missing attempt"
          | some attempt =>
            if history.any (fun ev =>
                ev.event_type == "merge_succeeded"
                  && ev.task_id == some task_id
                  && ev.attempt == some attempt) then
              checksApprovedGuard next
            else
              .error "invalid transition: task_closed requires merge_succeeded for same attempt"
      else
        checksApprovedGuard next

instance : DecidableEq (Except String Unit) := fun x y =>
  match x, y with
  | .ok (), .ok () => isTrue rfl
  | .error a, .error b =>
    if h : a = b then isTrue (by rw [h])
    else isFalse (fun hh => by cases hh; exact h rfl)
  | .ok _, .error _ => isFalse (fun hh => by cases hh)
  | .error _, .ok _ => isFalse (fun hh => by cases hh)

/-- Direct predicate encoding of claimability (`claimable` in
`policy/rules.rs`). Note that, unlike the rule-engine policy actually
used by the supervisor loop, this function does not consult
`checks_approved`. -/
def rulesClaimable (run : RunProjection) (task : TaskProjection) : Bool :=
  if run.paused || !run.spec_approved || !run.open_questions.isEmpty
      || run.terminal.isSome then false
  else if task.closed || task.terminal_failed || task.claimed then false
  else task.dependencies.all (fun dep =>
    ((findEntry run.tasks dep).map (fun t => t.closed)).getD false)

/-- Direct predicate encoding of closability (`closable` in
`policy/rules.rs`). -/
def rulesClosable (task : TaskProjection) : Bool :=
  let a := task.latest_attempt
  decide (0 < a) && task.review_approved_attempts.contains a
    && task.checks_passed_attempts.contains a
    && !task.unresolved_findings_attempts.contains a

/-- Ground atom of the composed SPL theory built by
`derive_policy_state` in `policy/spindle_bridge.rs`. -/
inductive PFact where
  | specApproved : PFact
  | checksApproved : PFact
  | noOpenQuestions : PFact
  | runActive : PFact
  | runPaused : PFact
  | task : String → PFact
  | ready : String → PFact
  | unclaimed : String → PFact
  | unclosed : String → PFact
  | unfailed : String → PFact
  | claimed : String → PFact
  | closed : String → PFact
  | terminalFailed : String → PFact
  | hasObjective : String → PFact
  | hasAcceptance : String → PFact
  | dependsOn : String → String → PFact
  | latestAttempt : String → Int → PFact
  | findingsClear : String → Int → PFact
  | reviewApproved : String → Int → PFact
  | checksPassed : String → Int → PFact
  | findingsOpen : String → Int → PFact
deriving Repr, DecidableEq

/-- Task entry of the translated plan (`PlanTask` in
`plan/translator.rs`), restricted to the fields that reach the SPL
facts consumed by the policy bridge. -/
structure PlanTask where
  id : String
  dependencies : List String
deriving Repr, DecidableEq

/-- Given facts contributed by the translated `plan.spl`
(`translate_markdown_to_spl` emits, per task, `(task id)`,
`(has-objective id)`, `(has-acceptance id)`, one `(depends-on id dep)`
per dependency, and `(ready id)` when the task has no dependencies). -/
def planGivens (plan : List PlanTask) : List PFact :=
  plan.flatMap (fun pt =>
    [PFact.task pt.id, PFact.hasObjective pt.id, PFact.hasAcceptance pt.id]
      ++ pt.dependencies.map (fun d => PFact.dependsOn pt.id d)
      ++ (if pt.dependencies.isEmpty then [PFact.ready pt.id] else []))

/-- Lifecycle given facts composed by `derive_policy_state`
(`policy/spindle_bridge.rs`, the `(given ...)` lines), in source order. -/
def lifecycleGivens (run : RunProjection) : List PFact :=
  (if run.spec_approved then [PFact.specApproved] else [])
    ++ (if run.checks_approved then [PFact.checksApproved] else [])
    ++ (if run.open_questions.isEmpty then [PFact.noOpenQuestions] else [])
    ++ (if !run.paused && run.terminal.isNone then [PFact.runActive] else [])
    ++ (if run.paused then [PFact.runPaused] else [])
    ++ run.tasks.flatMap (fun entry =>
      let t := entry.2
      [PFact.task t.id]
        ++ (if t.dependencies.all (fun dep =>
              ((findEntry run.tasks dep).map (fun d => d.closed)).getD false)
            then [PFact.ready t.id] else [])
        ++ (if !t.claimed then [PFact.unclaimed t.id] else [])
        ++ (if !t.closed then [PFact.unclosed t.id] else [])
        ++ (if !t.terminal_failed then [PFact.unfailed t.id] else [])
        ++ (if t.claimed then [PFact.claimed t.id] else [])
        ++ (if t.closed then [PFact.closed t.id] else [])
        ++ (if t.terminal_failed then [PFact.terminalFailed t.id] else [])
        ++ (if 0 < t.latest_attempt then
              [PFact.latestAttempt t.id t.latest_attempt]
                ++ (if !t.unresolved_findings_attempts.contains t.latest_attempt
                    then [PFact.findingsClear t.id t.latest_attempt] else [])
            else [])
        ++ t.review_approved_attempts.map (fun a => PFact.reviewApproved t.id a)
        ++ t.checks_passed_attempts.map (fun a => PFact.checksPassed t.id a)
        ++ t.unresolved_findings_attempts.map (fun a => PFact.findingsOpen t.id a))

/-- All given facts of the composed theory: static policy rules carry no
facts, then the translated plan facts, then the lifecycle facts. -/
def policyGivens (run : RunProjection) (plan : List PlanTask) : List PFact :=
  planGivens plan ++ lifecycleGivens run

/-- Derivability of `(ready t)` in the composed theory: either the atom
is given, or a plan rule `(always r-ready-t (and (closed d) ...) (ready t))`
fires, its body atoms `(closed d)` being derivable only as givens. -/
def readyProvable (givens : List PFact) (plan : List PlanTask) (t : String) : Bool :=
  givens.contains (PFact.ready t)
    || plan.any (fun pt =>
        pt.id == t && !pt.dependencies.isEmpty
          && pt.dependencies.all (fun d => givens.contains (PFact.closed d)))

/-- Derivability of `(claimable t)`: the only rule with that head is
`policy-claimable` in `STATIC_POLICY_RULES`, and each body atom other
than `(ready t)` is derivable exactly when it is given. -/
def claimableProvable (givens : List PFact) (plan : List PlanTask) (t : String) : Bool :=
  givens.contains (PFact.task t)
    && readyProvable givens plan t
    && givens.contains PFact.specApproved
    && givens.contains PFact.checksApproved
    && givens.contains PFact.noOpenQuestions
    && givens.contains PFact.runActive
    && givens.contains (PFact.unclaimed t)
    && givens.contains (PFact.unclosed t)
    && givens.contains (PFact.unfailed t)

/-- Derivability of `(closable t)` via rule `policy-closable`, which
binds the attempt variable. -/
def closableProvable (givens : List PFact) (t : String) : Bool :=
  givens.any (fun f =>
    match f with
    | PFact.latestAttempt t' a =>
      t' == t && givens.contains (PFact.reviewApproved t a)
        && givens.contains (PFact.checksPassed t a)
        && givens.contains (PFact.findingsClear t a)
    | _ => false)
  && givens.contains (PFact.task t)

/-- Derivability of `(merge-ready t)` via rule `policy-merge-ready`. -/
def mergeReadyProvable (givens : List PFact) (t : String) : Bool :=
  givens.contains (PFact.task t) && closableProvable givens t
    && givens.contains PFact.noOpenQuestions && givens.contains PFact.runActive

/-- Result of `derive_policy_state` (`PolicySnapshot` in
`policy/spindle_bridge.rs`); the id sets are modelled as lists. -/
structure PolicySnapshot where
  run_paused : Bool := false
  claimable : List String := []
  closable : List String := []
  merge_ready : List String := []
deriving Repr, DecidableEq

/-- Shallow embedding of `derive_policy_state`: compose the given facts
and query each registered task id against the three rule heads. The
external rule engine (spindle) is modelled by Horn-clause derivability
over the fixed composed theory, which the `...Provable` functions
compute exactly: no rule head occurs in any rule body except `ready`,
whose body atoms `(closed d)` are only ever given. -/
def derivePolicyState (run : RunProjection) (plan : List PlanTask) : PolicySnapshot :=
  let givens := policyGivens run plan
  { run_paused := run.paused || !run.open_questions.isEmpty,
    claimable := (run.tasks.map Prod.fst).filter (fun t => claimableProvable givens plan t),
    closable := (run.tasks.map Prod.fst).filter (fun t => closableProvable givens t),
    merge_ready := (run.tasks.map Prod.fst).filter (fun t => mergeReadyProvable givens t) }

/-- Executable lexicographic comparison of code-point sequences; agrees
with the byte-wise order Rust uses on `String` (UTF-8 preserves
code-point order). -/
def lexLe : List Char → List Char → Bool
  | [], _ => true
  | _ :: _, [] => false
  | a :: as, b :: bs =>
    if a.toNat < b.toNat then true
    else if b.toNat < a.toNat then false
    else lexLe as bs

/-- Lexicographic order on strings used by `ids.sort()` in the scheduler. -/
def strLe (a b : String) : Prop := lexLe a.data b.data = true

instance : DecidableRel strLe := fun a b => by
  unfold strLe; infer_instance

/-- Scheduler (`next_claimable_task` in `run/scheduler.rs`): sort the
task ids, return the first whose task is claimable with attempts below
the budget. -/
def nextClaimableTask (run : RunProjection) (policy : PolicySnapshot)
    (max_attempts : Int) : Option String :=
  let ids := List.insertionSort strLe (run.tasks.map Prod.fst)
  ids.find? (fun id =>
    ((findEntry run.tasks id).map (fun t =>
      policy.claimable.contains id && decide (t.attempts < max_attempts))).getD false)

/-- Lease heartbeat period in seconds (`LEASE_TICK_SECS` in `run/lease.rs`). -/
def LEASE_TICK_SECS : Int := 15

/-- Staleness window in seconds (`LEASE_STALE_AFTER_SECS` in `run/lease.rs`). -/
def LEASE_STALE_AFTER_SECS : Int := 90

/-- Lease state (`LeaseState` in `run/lease.rs`). -/
inductive LeaseState where
  | active : LeaseState
  | released : LeaseState
deriving Repr, DecidableEq

/-- On-disk lease record (`AttemptLeaseRecord` in `run/lease.rs`);
RFC 3339 timestamps are modelled as integer seconds. -/
structure AttemptLeaseRecord where
  version : Nat := 1
  run_id : String := ""
  task_id : String := ""
  attempt : Int := 1
  role : String := ""
  owner_pid : Nat := 0
  started_at : Int := 0
  last_seen_at : Int := 0
  state : LeaseState := .active
deriving Repr, DecidableEq

/-- Parsed lease with derived fields (`ParsedLease` in `run/lease.rs`);
the file path is not modelled. -/
structure ParsedLease where
  record : AttemptLeaseRecord
  age_secs : Int
  owner_alive : Bool
deriving Repr, DecidableEq

/-- Resume decision (`OrphanLeaseDecision` in `run/lease.rs`); the JSON
details blob is not modelled, only the variant and reason. -/
inductive OrphanLeaseDecision where
  | interrupt : String → OrphanLeaseDecision
  | likelyActive : String → OrphanLeaseDecision
deriving Repr, DecidableEq

/-- Whether a decision is the `Interrupt` variant. -/
def OrphanLeaseDecision.isInterrupt : OrphanLeaseDecision → Bool
  | .interrupt _ => true
  | .likelyActive _ => false

/-- Newest lease among the parsed ones: the code sorts the list stably by
`last_seen_at` and takes the last element, which is the last listed
lease among those with the maximal `last_seen_at`. -/
def newestLease (parsed : List ParsedLease) : Option ParsedLease :=
  parsed.foldl
    (fun acc p =>
      match acc with
      | none => some p
      | some q => if q.record.last_seen_at ≤ p.record.last_seen_at then some p else some q)
    none

/-- Parse one lease record into a `ParsedLease`: the age is
`now.signed_duration_since(last_seen_at).num_seconds().max(0)` and the
signal-0 liveness probe `process_alive` is the `aliveFn` input. -/
def parseLease (aliveFn : Nat → Bool) (now : Int)
    (rec : AttemptLeaseRecord) : ParsedLease :=
  { record := rec, age_secs := max (now - rec.last_seen_at) 0,
    owner_alive := aliveFn rec.owner_pid }

/-- Leases present on disk for the two roles, parsed in role order
(the `for role in ["implementer", "reviewer"]` loop of
`evaluate_orphan_attempt_at`; a missing file contributes nothing). -/
def parsedLeases (aliveFn : Nat → Bool)
    (implLease revLease : Option AttemptLeaseRecord) (now : Int) :
    List ParsedLease :=
  ([implLease, revLease].filterMap id).map (parseLease aliveFn now)

/-- Orphan evaluation at a given instant (`evaluate_orphan_attempt_at`
in `run/lease.rs`). The lease files on disk for the two roles are the
`implLease`/`revLease` inputs (`none` when the file is absent). -/
def evaluateOrphanAttemptAt (aliveFn : Nat → Bool) (task_id : String)
    (attempt : Int) (implLease revLease : Option AttemptLeaseRecord)
    (now : Int) : OrphanLeaseDecision :=
  match newestLease (parsedLeases aliveFn implLease revLease now) with
  | none =>
    .interrupt "orphaned in-flight attempt detected on resume (no lease found)"
  | some newest =>
    if newest.record.state = .released then
      .interrupt "orphaned in-flight attempt detected on resume (lease released without terminal event)"
    else if newest.age_secs ≤ LEASE_STALE_AFTER_SECS then
      if newest.owner_alive then
        .likelyActive ("run appears active: recent active lease for task '" ++ task_id
          ++ "' attempt " ++ toString attempt ++ " (owner pid "
          ++ toString newest.record.owner_pid ++ " alive; age="
          ++ toString newest.age_secs ++ "s)")
      else
        .likelyActive ("run has recent active lease for task '" ++ task_id
          ++ "' attempt " ++ toString attempt ++ " (owner pid "
          ++ toString newest.record.owner_pid ++ " not alive; age="
          ++ toString newest.age_secs ++ "s). wait until stale window ("
          ++ toString LEASE_STALE_AFTER_SECS ++ "s) before resuming")
    else
      .interrupt ("orphaned in-flight attempt detected on resume (stale lease age="
        ++ toString newest.age_secs ++ "s)")

/-- Row of the `events` table as inserted by `append_event`. -/
structure StoredEvent where
  run_id : String
  seq : Int
  event : NewEvent

/-- State of the SQLite `events` table: inserted rows plus the
`AUTOINCREMENT` counter backing `seq`. -/
structure EventStoreState where
  rows : List StoredEvent := []
  next_seq : Int := 1

/-- Shallow embedding of `EventStore::append_event`
(`events/store.rs`): an `INSERT OR IGNORE` under the unique index
`idx_events_run_dedupe` on `(run_id, dedupe_key) WHERE dedupe_key IS
NOT NULL` (`events/schema.rs`). A conflicting insert is ignored and the
function returns no new `seq`; otherwise the row is inserted with the
next sequence number. -/
def appendEvent (s : EventStoreState) (run_id : String) (e : NewEvent) :
    Option Int × EventStoreState :=
  let conflict :=
    match e.dedupe_key with
    | some k =>
      s.rows.any (fun r => r.run_id == run_id && r.event.dedupe_key == some k)
    | none => false
  if conflict then (none, s)
  else
    (some s.next_seq,
     { rows := s.rows ++ [{ run_id := run_id, seq := s.next_seq, event := e }],
       next_seq := s.next_seq + 1 })

/-- Rows of a run whose dedupe key equals the given one. -/
def rowsWithDedupe (s : EventStoreState) (run_id k : String) : List StoredEvent :=
  s.rows.filter (fun r => r.run_id == run_id && r.event.dedupe_key == some k)

/-- Outcome of one iteration of the supervisor loop
(`run_supervisor_loop` in `run/loop.rs`) before any attempt I/O runs. -/
inductive LoopStep where
  | returnTerminal : String → LoopStep
  | returnPaused : LoopStep
  | runAttempt : String → LoopStep
  | emitAndReturn : String → String → LoopStep
deriving Repr, DecidableEq

/-- Decision structure of one supervisor-loop iteration
(`run_supervisor_loop`): terminal check, pause check, scheduler, then
the completion/failure tail of the iteration (source lines after the
scheduler returns nothing). `emitAndReturn ty reason` stands for
appending `NewEvent::simple(ty, ...)` and returning `ty`; the second
component is the payload `reason` (or the empty string for the
`task_count` payload of the all-done branch). -/
def supervisorStep (projected : RunProjection) (policy : PolicySnapshot)
    (max_attempts : Int) (allow_partial_completion : Bool) : LoopStep :=
  match projected.terminal with
  | some term => .returnTerminal term
  | none =>
    if policy.run_paused then .returnPaused
    else
      match nextClaimableTask projected policy max_attempts with
      | some task_id => .runAttempt task_id
      | none =>
        let all_done := !projected.tasks.isEmpty
          && projected.tasks.all (fun e => e.2.closed || e.2.terminal_failed)
        if all_done then
          let has_terminal_failed := projected.tasks.any (fun e => e.2.terminal_failed)
          let final_event :=
            if has_terminal_failed && !allow_partial_completion then "run_failed"
            else "run_completed"
          .emitAndReturn final_event ""
        else
          let pending_tasks :=
            (projected.tasks.filter (fun e => !e.2.closed && !e.2.terminal_failed)).length
          if 0 < pending_tasks then
            let any_attempt_room := projected.tasks.any (fun e =>
              !e.2.closed && !e.2.terminal_failed && decide (e.2.attempts < max_attempts))
            if !any_attempt_room then
              .emitAndReturn "run_failed" "no schedulable tasks and no attempt budget"
            else
              let block_all :=
                (projected.tasks.filter (fun e => !e.2.closed && !e.2.terminal_failed)).all
                  (fun e => e.2.dependencies.any (fun dep =>
                    ((findEntry projected.tasks dep).map
                      (fun d => d.terminal_failed)).getD true))
              if block_all then
                .emitAndReturn "run_failed" "dependency deadlock"
              else
                .emitAndReturn "run_failed" "unschedulable state"
          else
            .emitAndReturn "run_failed" "unschedulable state"

/-- Closed event taxonomy of the system (spec section 6). -/
def EVENT_TAXONOMY : List String :=
  ["run_started", "plan_translated", "plan_validated", "spec_approved",
   "spec_question_opened", "spec_question_resolved", "checks_proposed",
   "checks_approved", "checks_question_opened", "checks_question_resolved",
   "human_input_requested", "human_input_provided", "run_paused", "run_resumed",
   "task_registered", "task_claimed", "work_submitted", "review_requested",
   "review_found_issues", "review_approved", "checks_reported",
   "merge_succeeded", "merge_conflict", "attempt_interrupted", "task_closed",
   "task_failed_terminal", "run_completed", "run_failed", "run_cancelled"]

/-- Whether every event of a history was accepted by
`validate_transition` against the events appended before it, given the
events already past. -/
def validatedFrom (past : List EventRow) : List EventRow → Bool
  | [] => true
  | ev :: rest =>
    (validateTransition past ev.toNewEvent == .ok ())
      && validatedFrom (past ++ [ev]) rest

/-- Whether every event of a history was accepted by
`validate_transition` against the events appended before it. -/
def validatedHistory (h : List EventRow) : Bool :=
  validatedFrom [] h

/-- Fixture: an event whose type is outside the taxonomy. -/
def unknownEv : EventRow :=
  { seq := 1, run_id := "r1", ts := "", event_type := "bogus_event",
    task_id := none, actor_role := none, actor_id := none, attempt := none,
    payload_json := .obj [], dedupe_key := none }

/-- Fixture: the single `checks_question_opened` event used by the
repository's own projector test
(`checks_question_events_do_not_open_projected_questions` in
`tests/projector.rs`). -/
def checksQuestionEv : EventRow :=
  { seq := 1, run_id := "r1", ts := "2026-02-20T00:00:00Z",
    event_type := "checks_question_opened", task_id := none,
    actor_role := none, actor_id := none, attempt := none,
    payload_json := .obj [("question_id", .str "checks-q-1"),
                         ("question", .str "legacy")],
    dedupe_key := none }

/-- Fixture: registration of task `t1` with no dependencies. -/
def regT1Ev : EventRow :=
  { seq := 1, run_id := "r1", ts := "", event_type := "task_registered",
    task_id := some "t1", actor_role := none, actor_id := none,
    attempt := none,
    payload_json := .obj [("task_id", .str "t1"), ("objective", .str "o"),
                         ("dependencies", .arr []), ("checks", .arr [])],
    dedupe_key := none }

/-- Fixture: `task_failed_terminal` for `t1`. -/
def failT1Ev : EventRow :=
  { seq := 2, run_id := "r1", ts := "", event_type := "task_failed_terminal",
    task_id := some "t1", actor_role := some "supervisor", actor_id := none,
    attempt := some 1, payload_json := .obj [], dedupe_key := none }

/-- Fixture: `merge_succeeded` for `t1` attempt 1. -/
def mergeT1Ev : EventRow :=
  { seq := 3, run_id := "r1", ts := "", event_type := "merge_succeeded",
    task_id := some "t1", actor_role := some "supervisor", actor_id := none,
    attempt := some 1, payload_json := .obj [], dedupe_key := none }

/-- Fixture: `task_closed` for `t1` attempt 1. -/
def closeT1Ev : EventRow :=
  { seq := 4, run_id := "r1", ts := "", event_type := "task_closed",
    task_id := some "t1", actor_role := some "supervisor", actor_id := none,
    attempt := some 1, payload_json := .obj [], dedupe_key := none }

/-- Fixture: a `run_cancelled` terminal event. -/
def cancelEv : EventRow :=
  { seq := 5, run_id := "r1", ts := "", event_type := "run_cancelled",
    task_id := none, actor_role := none, actor_id := none, attempt := none,
    payload_json := .obj [], dedupe_key := none }

/-- Fixture: a fresh active lease record. -/
def activeLease : AttemptLeaseRecord :=
  { run_id := "r1", task_id := "task-a", attempt := 1, role := "implementer",
    owner_pid := 7, started_at := 1000, last_seen_at := 1000, state := .active }

/-- Fixture: a projection with the single dependency-free task `t1`,
all run gates open. -/
def basicRun : RunProjection :=
  { run_id := "r1", spec_approved := true, checks_approved := true,
    checks_commands := ["true"],
    tasks := [("t1", { id := "t1", objective := "o", acceptance := "a" })] }

/-- Fixture: a `NewEvent` carrying a dedupe key. -/
def dedupedEv : NewEvent :=
  { event_type := "attempt_interrupted", task_id := some "t1",
    actor_role := some "supervisor", actor_id := none, attempt := some 1,
    payload_json := .obj [], dedupe_key := some "attempt_interrupted:t1:1" }

/-- C2: contrary to the claim (and to the repository's own test
`checks_question_events_do_not_open_projected_questions`), folding a
`checks_question_opened` event does change the projection's
`open_questions`: the projector handles `checks_question_opened` in the
same match arm as `spec_question_opened` and inserts the question. -/
theorem checks_question_opened_changes_open_questions :
    RunProjection.replay [checksQuestionEv] =
      { run_id := "r1", open_questions := [("checks-q-1", "legacy")] } := by
  decide

/-- C9 counterexample: asking the projector to handle an event type
outside the taxonomy is not a fatal invariant violation; the fold
silently ignores the event, returning the prior projection with only
`run_id` refreshed. -/
theorem projector_ignores_unknown_event_cex :
    RunProjection.replay [unknownEv] = { run_id := "r1" } := by
  decide

/-- C9 amended: the projector's catch-all arm silently ignores any
event whose type is outside the closed taxonomy; folding such an event
changes nothing but the `run_id` field. -/
theorem apply_event_unknown_type_is_identity (s : RunProjection) (ev : EventRow)
    (h : ev.event_type ∉ EVENT_TAXONOMY) :
    applyEvent s ev = { s with run_id := ev.run_id } := by
  have h1 : ev.event_type ≠ "task_registered" := fun e => h (by rw [e]; decide)
  have h2 : ev.event_type ≠ "spec_approved" := fun e => h (by rw [e]; decide)
  have h3 : ev.event_type ≠ "checks_approved" := fun e => h (by rw [e]; decide)
  have h4 : ev.event_type ≠ "run_paused" := fun e => h (by rw [e]; decide)
  have h5 : ev.event_type ≠ "human_input_requested" := fun e => h (by rw [e]; decide)
  have h6 : ev.event_type ≠ "run_resumed" := fun e => h (by rw [e]; decide)
  have h7 : ev.event_type ≠ "spec_question_opened" := fun e => h (by rw [e]; decide)
  have h8 : ev.event_type ≠ "checks_question_opened" := fun e => h (by rw [e]; decide)
  have h9 : ev.event_type ≠ "spec_question_resolved" := fun e => h (by rw [e]; decide)
  have h10 : ev.event_type ≠ "checks_question_resolved" := fun e => h (by rw [e]; decide)
  have h11 : ev.event_type ≠ "task_claimed" := fun e => h (by rw [e]; decide)
  have h12 : ev.event_type ≠ "review_found_issues" := fun e => h (by rw [e]; decide)
  have h13 : ev.event_type ≠ "review_approved" := fun e => h (by rw [e]; decide)
  have h14 : ev.event_type ≠ "checks_reported" := fun e => h (by rw [e]; decide)
  have h15 : ev.event_type ≠ "merge_succeeded" := fun e => h (by rw [e]; decide)
  have h16 : ev.event_type ≠ "task_closed" := fun e => h (by rw [e]; decide)
  have h17 : ev.event_type ≠ "task_failed_terminal" := fun e => h (by rw [e]; decide)
  have h18 : ev.event_type ≠ "attempt_interrupted" := fun e => h (by rw [e]; decide)
  have h19 : ev.event_type ≠ "run_completed" := fun e => h (by rw [e]; decide)
  have h20 : ev.event_type ≠ "run_failed" := fun e => h (by rw [e]; decide)
  have h21 : ev.event_type ≠ "run_cancelled" := fun e => h (by rw [e]; decide)
  simp [applyEvent, h1, h2, h3, h4, h5, h6, h7, h8, h9, h10, h11, h12, h13,
        h14, h15, h16, h17, h18, h19, h20, h21]

/-- C9 amended witness at the concrete unknown event. -/
theorem apply_event_unknown_type_is_identity_witness :
    unknownEv.event_type ∉ EVENT_TAXONOMY ∧
      applyEvent {} unknownEv = { run_id := "r1" } :=
  ⟨by decide, apply_event_unknown_type_is_identity {} unknownEv (by decide)⟩

/-- C5: a run sees at most one terminal event: once the history holds a
terminal event every further terminal event is rejected, and once the
projected terminal flag is set every non-terminal event is rejected. -/
theorem terminal_event_at_most_once (h : List EventRow) (next : NewEvent) :
    (h.any (fun ev => TERMINAL_EVENTS.contains ev.event_type) = true →
      TERMINAL_EVENTS.contains next.event_type = true →
      validateTransition h next =
        .error "invalid transition: run terminal event already exists")
    ∧ ((RunProjection.replay h).terminal.isSome = true →
      TERMINAL_EVENTS.contains next.event_type = false →
      validateTransition h next =
        .error "invalid transition: run already terminal") := by
  constructor
  · intro hHist hNext
    simp at hHist hNext
    simp [validateTransition, hHist, hNext]
  · intro hTerm hNext
    simp at hNext
    simp [validateTransition, hTerm, hNext]

/-- C4: a `task_closed` event for task `t` and attempt `a` is accepted
only when the history already holds a `merge_succeeded` event with the
same task id and attempt, and is rejected whenever no such event
exists. -/
theorem task_closed_requires_matching_merge (h : List EventRow) (next : NewEvent)
    (t : String) (a : Int) (het : next.event_type = "task_closed")
    (hid : next.task_id = some t) (hat : next.attempt = some a) :
    (validateTransition h next = .ok () →
      ∃ ev ∈ h, ev.event_type = "merge_succeeded" ∧ ev.task_id = some t
        ∧ ev.attempt = some a)
    ∧ ((¬ ∃ ev ∈ h, ev.event_type = "merge_succeeded" ∧ ev.task_id = some t
        ∧ ev.attempt = some a) →
      validateTransition h next ≠ .ok ()) := by
  simp [validateTransition, checksApprovedGuard, het, hid, hat, TERMINAL_EVENTS]
  constructor
  · intro hok
    split at hok
    · exact absurd hok (by simp)
    · split at hok
      · rename_i hm
        obtain ⟨x, hx, ⟨h1, h2⟩, h3⟩ := hm
        exact ⟨x, hx, h1, h2, h3⟩
      · exact absurd hok (by simp)
  · intro hall hok
    split at hok
    · exact absurd hok (by simp)
    · split at hok
      · rename_i hm
        obtain ⟨x, hx, ⟨h1, h2⟩, h3⟩ := hm
        exact hall x hx h1 h2 h3
      · exact absurd hok (by simp)

/-- C4 witness: with a matching merge in the history the accepted close
implies the merge exists; with an empty history the close is rejected. -/
theorem task_closed_requires_matching_merge_witness :
    (∃ ev ∈ [mergeT1Ev], ev.event_type = "merge_succeeded"
      ∧ ev.task_id = some "t1" ∧ ev.attempt = some (1 : Int))
    ∧ validateTransition [] closeT1Ev.toNewEvent ≠ .ok () :=
  ⟨(task_closed_requires_matching_merge [mergeT1Ev] closeT1Ev.toNewEvent "t1" 1
      (by decide) (by decide) (by decide)).1 (by decide),
   (task_closed_requires_matching_merge [] closeT1Ev.toNewEvent "t1" 1
      (by decide) (by decide) (by decide)).2 (by simp)⟩

/-- C5 witness: after `run_cancelled`, a second terminal event and a
non-terminal event are both rejected. -/
theorem terminal_event_at_most_once_witness :
    validateTransition [cancelEv] (NewEvent.simple "run_completed" (.obj [])) =
        .error "invalid transition: run terminal event already exists"
      ∧ validateTransition [cancelEv] (NewEvent.simple "task_claimed" (.obj [])) =
        .error "invalid transition: run already terminal" :=
  ⟨(terminal_event_at_most_once [cancelEv]
      (NewEvent.simple "run_completed" (.obj []))).1 (by decide) (by decide),
   (terminal_event_at_most_once [cancelEv]
      (NewEvent.simple "task_claimed" (.obj []))).2 (by decide) (by decide)⟩


/-- Helper: a decision that is not `Interrupt` is `LikelyActive` with
some reason. -/
theorem exists_likelyActive_reason (d : OrphanLeaseDecision)
    (h : d.isInterrupt = false) : ∃ r, d = .likelyActive r := by
  cases d
  · simp [OrphanLeaseDecision.isInterrupt] at h
  · exact ⟨_, rfl⟩

/-- C6: orphan evaluation returns `Interrupt` when no lease file exists
for either role; `Interrupt` when the newest lease (by `last_seen_at`)
is `released`, regardless of age; `LikelyActive` when the newest lease
is active with age at most `STALE` (90 s); `Interrupt` when the newest
lease is active with age above `STALE`; and the owner-pid liveness
probe never changes which decision is returned. -/
theorem orphan_lease_evaluation_spec (aliveFn : Nat → Bool) (task_id : String)
    (attempt : Int) (implLease revLease : Option AttemptLeaseRecord) (now : Int) :
    (implLease = none → revLease = none →
      evaluateOrphanAttemptAt aliveFn task_id attempt implLease revLease now =
        .interrupt "orphaned in-flight attempt detected on resume (no lease found)")
    ∧ (∀ p, newestLease (parsedLeases aliveFn implLease revLease now) = some p →
        p.record.state = .released →
        evaluateOrphanAttemptAt aliveFn task_id attempt implLease revLease now =
          .interrupt "orphaned in-flight attempt detected on resume (lease released without terminal event)")
    ∧ (∀ p, newestLease (parsedLeases aliveFn implLease revLease now) = some p →
        p.record.state = .active → p.age_secs ≤ LEASE_STALE_AFTER_SECS →
        ∃ r, evaluateOrphanAttemptAt aliveFn task_id attempt implLease revLease now =
          .likelyActive r)
    ∧ (∀ p, newestLease (parsedLeases aliveFn implLease revLease now) = some p →
        p.record.state = .active → LEASE_STALE_AFTER_SECS < p.age_secs →
        evaluateOrphanAttemptAt aliveFn task_id attempt implLease revLease now =
          .interrupt ("orphaned in-flight attempt detected on resume (stale lease age="
            ++ toString p.age_secs ++ "s)"))
    ∧ (∀ aliveFn2 : Nat → Bool,
        (evaluateOrphanAttemptAt aliveFn task_id attempt implLease revLease now).isInterrupt =
        (evaluateOrphanAttemptAt aliveFn2 task_id attempt implLease revLease now).isInterrupt) := by
  refine ⟨?_, ?_, ?_, ?_, ?_⟩
  · intro h1 h2
    subst h1; subst h2
    rfl
  · intro p hnew hrel
    simp [evaluateOrphanAttemptAt, hnew, hrel]
  · intro p hnew hst hage
    have hne : ¬ p.record.state = .released := by simp [hst]
    apply exists_likelyActive_reason
    cases hAlive : p.owner_alive <;>
      simp [evaluateOrphanAttemptAt, hnew, hne, hage, hAlive,
            OrphanLeaseDecision.isInterrupt]
  · intro p hnew hst hage
    have hne : ¬ p.record.state = .released := by simp [hst]
    have hgt : ¬ p.age_secs ≤ LEASE_STALE_AFTER_SECS := not_le.mpr hage
    simp [evaluateOrphanAttemptAt, hnew, hne, hgt]
  · intro aliveFn2
    rcases implLease with _ | a <;> rcases revLease with _ | b
    · rfl
    · simp only [evaluateOrphanAttemptAt, parsedLeases, parseLease, newestLease,
        List.filterMap, List.map, List.foldl]
      simp only [apply_ite OrphanLeaseDecision.isInterrupt]
      simp [OrphanLeaseDecision.isInterrupt]
    · simp only [evaluateOrphanAttemptAt, parsedLeases, parseLease, newestLease,
        List.filterMap, List.map, List.foldl]
      simp only [apply_ite OrphanLeaseDecision.isInterrupt]
      simp [OrphanLeaseDecision.isInterrupt]
    · simp only [evaluateOrphanAttemptAt, parsedLeases, parseLease, newestLease,
        List.filterMap, List.map, List.foldl]
      by_cases hcmp : a.last_seen_at ≤ b.last_seen_at <;>
        simp only [hcmp, if_true, if_false, ite_true, ite_false] <;>
        simp only [apply_ite OrphanLeaseDecision.isInterrupt] <;>
        simp [OrphanLeaseDecision.isInterrupt]

/-- C6 witness: concrete decisions around the staleness boundary for a
lease last seen at t=1000, and invariance under the liveness probe. -/
theorem orphan_lease_evaluation_spec_witness :
    evaluateOrphanAttemptAt (fun _ => false) "task-a" 1 none none 0 =
        .interrupt "orphaned in-flight attempt detected on resume (no lease found)"
      ∧ evaluateOrphanAttemptAt (fun _ => false) "task-a" 1
          (some { activeLease with state := .released }) none 1000 =
        .interrupt "orphaned in-flight attempt detected on resume (lease released without terminal event)"
      ∧ (∃ r, evaluateOrphanAttemptAt (fun _ => false) "task-a" 1
          (some activeLease) none 1090 = .likelyActive r)
      ∧ evaluateOrphanAttemptAt (fun _ => false) "task-a" 1
          (some activeLease) none 1091 =
        .interrupt ("orphaned in-flight attempt detected on resume (stale lease age="
          ++ toString (91 : Int) ++ "s)")
      ∧ (evaluateOrphanAttemptAt (fun _ => false) "task-a" 1
          (some activeLease) none 1091).isInterrupt =
        (evaluateOrphanAttemptAt (fun _ => true) "task-a" 1
          (some activeLease) none 1091).isInterrupt :=
  ⟨(orphan_lease_evaluation_spec (fun _ => false) "task-a" 1 none none 0).1 rfl rfl,
   (orphan_lease_evaluation_spec (fun _ => false) "task-a" 1
      (some { activeLease with state := .released }) none 1000).2.1
      { record := { activeLease with state := .released }, age_secs := 0,
        owner_alive := false } (by decide) (by decide),
   (orphan_lease_evaluation_spec (fun _ => false) "task-a" 1
      (some activeLease) none 1090).2.2.1
      { record := activeLease, age_secs := 90, owner_alive := false }
      (by decide) (by decide) (by decide),
   (orphan_lease_evaluation_spec (fun _ => false) "task-a" 1
      (some activeLease) none 1091).2.2.2.1
      { record := activeLease, age_secs := 91, owner_alive := false }
      (by decide) (by decide) (by decide),
   (orphan_lease_evaluation_spec (fun _ => false) "task-a" 1
      (some activeLease) none 1091).2.2.2.2 (fun _ => true)⟩

/-- C8: appending the same `NewEvent` with a non-null dedupe key twice
to a store with no prior row for that `(run_id, dedupe_key)` yields
exactly one sequence number: the first append returns `some seq`, the
second returns `none` rather than an error, and the run holds exactly
one row with that dedupe key. -/
theorem append_event_dedupe_once (s : EventStoreState) (run_id : String) (e : NewEvent) (k : String)
    (hk : e.dedupe_key = some k)
    (hfresh : rowsWithDedupe s run_id k = []) :
    (appendEvent s run_id e).1 = some s.next_seq
    ∧ (appendEvent (appendEvent s run_id e).2 run_id e).1 = none
    ∧ (rowsWithDedupe (appendEvent (appendEvent s run_id e).2 run_id e).2 run_id k).length = 1 := by
  have hany : (s.rows.any fun r => r.run_id == run_id && r.event.dedupe_key == some k) = false := by
    rw [List.any_eq_false]
    intro r hr
    have h2 := List.filter_eq_nil_iff.mp hfresh r hr
    simpa using h2
  simp [appendEvent, rowsWithDedupe, hk, hany, List.filter_append, hfresh]
  intro r hr hrun
  have h2 := List.filter_eq_nil_iff.mp hfresh r hr
  simpa [hrun] using h2

/-- C8 witness: double append of a deduplicated event on a fresh store. -/
theorem append_event_dedupe_once_witness :
    (appendEvent {} "r1" dedupedEv).1 = some 1
    ∧ (appendEvent (appendEvent {} "r1" dedupedEv).2 "r1" dedupedEv).1 = none
    ∧ (rowsWithDedupe (appendEvent (appendEvent {} "r1" dedupedEv).2 "r1" dedupedEv).2
        "r1" "attempt_interrupted:t1:1").length = 1 :=
  append_event_dedupe_once {} "r1" dedupedEv "attempt_interrupted:t1:1" rfl rfl

/-- C10: when the supervisor loop observes a projection with an empty
task map, no terminal event, and neither the paused flag nor a blocking
open question set (the loop's pause gate, `policy.run_paused`, is the
disjunction of the two), it appends `run_failed` with reason
"unschedulable state" and returns; and no iteration ever emits
`run_completed` for an empty task map, because the all-done check
requires a non-empty task set. -/
theorem supervisor_empty_tasks_run_failed (projected : RunProjection)
    (plan : List PlanTask) (max_attempts : Int) (partial_ok : Bool)
    (hempty : projected.tasks = []) (hterm : projected.terminal = none)
    (hpaused : projected.paused = false) (hq : projected.open_questions = []) :
    supervisorStep projected (derivePolicyState projected plan) max_attempts partial_ok =
      .emitAndReturn "run_failed" "unschedulable state"
    ∧ ∀ (proj2 : RunProjection) (pol2 : PolicySnapshot) (ma2 : Int) (ap2 : Bool) (r : String),
        supervisorStep proj2 pol2 ma2 ap2 = .emitAndReturn "run_completed" r →
        proj2.tasks ≠ [] := by
  constructor
  · simp [supervisorStep, hterm, hempty, hpaused, hq, derivePolicyState,
          nextClaimableTask, List.insertionSort]
  · intro proj2 pol2 ma2 ap2 r hstep h2empty
    cases ht : proj2.terminal with
    | some t => simp [supervisorStep, ht] at hstep
    | none =>
      cases hp : pol2.run_paused with
      | true => simp [supervisorStep, ht, hp] at hstep
      | false =>
        simp [supervisorStep, ht, hp, h2empty, nextClaimableTask,
              List.insertionSort] at hstep

/-- C10 witness: the empty projection fails as unschedulable. -/
theorem supervisor_empty_tasks_run_failed_witness :
    supervisorStep { run_id := "r1" } (derivePolicyState { run_id := "r1" } []) 3 false =
        .emitAndReturn "run_failed" "unschedulable state"
      ∧ supervisorStep basicRun { claimable := ["t1"] } 3 false ≠
        .emitAndReturn "run_completed" "" :=
  ⟨(supervisor_empty_tasks_run_failed { run_id := "r1" } [] 3 false rfl rfl rfl rfl).1,
   by decide⟩

/-- Reflexivity of the lexicographic comparison. -/
theorem lexLe_refl (l : List Char) : lexLe l l = true := by
  induction l with
  | nil => rfl
  | cons a as ih => simp [lexLe, ih]

/-- Reflexivity of the scheduler id order. -/
theorem strLe_refl (a : String) : strLe a a := lexLe_refl a.data

/-- Totality of the lexicographic comparison. -/
theorem lexLe_total (a : List Char) : ∀ b, lexLe a b = true ∨ lexLe b a = true := by
  induction a with
  | nil => intro b; left; rfl
  | cons x xs ih =>
    intro b
    cases b with
    | nil => right; rfl
    | cons y ys =>
      by_cases h1 : x.toNat < y.toNat
      · left; simp [lexLe, h1]
      · by_cases h2 : y.toNat < x.toNat
        · right; simp [lexLe, h2]
        · rcases ih ys with h | h
          · left; simp [lexLe, h1, h2, h]
          · right; simp [lexLe, h1, h2, h]

/-- Transitivity of the lexicographic comparison. -/
theorem lexLe_trans (a : List Char) :
    ∀ b c, lexLe a b = true → lexLe b c = true → lexLe a c = true := by
  induction a with
  | nil => intro b c _ _; rfl
  | cons x xs ih =>
    intro b c hab hbc
    cases b with
    | nil => simp [lexLe] at hab
    | cons y ys =>
      cases c with
      | nil => simp [lexLe] at hbc
      | cons z zs =>
        by_cases h1 : x.toNat < y.toNat
        · by_cases h2 : y.toNat < z.toNat
          · simp [lexLe, lt_trans h1 h2]
          · by_cases h3 : z.toNat < y.toNat
            · rw [lexLe, if_neg h2, if_pos h3] at hbc
              exact absurd hbc (by simp)
            · have hyz : y.toNat = z.toNat := le_antisymm (not_lt.mp h3) (not_lt.mp h2)
              simp [lexLe, hyz ▸ h1]
        · by_cases h4 : y.toNat < x.toNat
          · rw [lexLe, if_neg h1, if_pos h4] at hab
            exact absurd hab (by simp)
          · have hxy : x.toNat = y.toNat := le_antisymm (not_lt.mp h4) (not_lt.mp h1)
            rw [lexLe, if_neg h1, if_neg h4] at hab
            by_cases h2 : y.toNat < z.toNat
            · simp [lexLe, hxy ▸ h2]
            · by_cases h3 : z.toNat < y.toNat
              · rw [lexLe, if_neg h2, if_pos h3] at hbc
                exact absurd hbc (by simp)
              · rw [lexLe, if_neg h2, if_neg h3] at hbc
                have g1 : ¬ x.toNat < z.toNat := by rw [hxy]; exact h2
                have g2 : ¬ z.toNat < x.toNat := by rw [hxy]; exact h3
                rw [lexLe, if_neg g1, if_neg g2]
                exact ih ys zs hab hbc

instance : IsTrans String strLe :=
  ⟨fun a b c => lexLe_trans a.data b.data c.data⟩

instance : IsTotal String strLe :=
  ⟨fun a b => lexLe_total a.data b.data⟩

/-- On a sorted list, the first element satisfying a predicate is a
lower bound of every element satisfying it. -/
theorem find?_min_of_sorted {p : String → Bool} :
    ∀ {l : List String}, List.Pairwise strLe l → ∀ {x : String},
      l.find? p = some x → ∀ y ∈ l, p y = true → strLe x y := by
  intro l
  induction l with
  | nil => intro _ x hf; simp at hf
  | cons a as ih =>
    intro hs x hf y hy hpy
    rcases List.mem_cons.mp hy with heq | hmem
    · cases hpa : p a with
      | true =>
        rw [List.find?_cons_of_pos _ hpa] at hf
        cases hf
        rw [heq]
        exact strLe_refl a
      | false =>
        rw [heq, hpa] at hpy
        exact absurd hpy (by simp)
    · cases hpa : p a with
      | true =>
        rw [List.find?_cons_of_pos _ hpa] at hf
        cases hf
        exact (List.pairwise_cons.mp hs).1 y hmem
      | false =>
        rw [List.find?_cons_of_neg _ (by simp [hpa])] at hf
        exact ih (List.pairwise_cons.mp hs).2 hf y hmem hpy

/-- The scheduler predicate holds for an id exactly when the id maps
to a task that is in the claimable set with attempts below the
budget. -/
theorem scheduler_eligible_iff (run : RunProjection) (policy : PolicySnapshot)
    (max_attempts : Int) (id : String) :
    ((findEntry run.tasks id).map (fun t =>
        policy.claimable.contains id && decide (t.attempts < max_attempts))).getD false = true
    ↔ ∃ tp, findEntry run.tasks id = some tp ∧ policy.claimable.contains id = true
        ∧ tp.attempts < max_attempts := by
  cases h : findEntry run.tasks id <;> simp [h]

/-- C7: `next_claimable_task` returns the lexicographically smallest
task id that is in the claimable set with attempts strictly below
`max_attempts`, and returns `None` exactly when no task id qualifies. -/
theorem next_claimable_task_spec (run : RunProjection) (policy : PolicySnapshot) (max_attempts : Int) :
    (∀ t, nextClaimableTask run policy max_attempts = some t →
      (∃ tp, findEntry run.tasks t = some tp ∧ policy.claimable.contains t = true
        ∧ tp.attempts < max_attempts)
      ∧ ∀ id ∈ run.tasks.map Prod.fst,
          (∃ tp2, findEntry run.tasks id = some tp2 ∧ policy.claimable.contains id = true
            ∧ tp2.attempts < max_attempts) → strLe t id)
    ∧ (nextClaimableTask run policy max_attempts = none ↔
        ∀ id ∈ run.tasks.map Prod.fst,
          ¬ ∃ tp, findEntry run.tasks id = some tp ∧ policy.claimable.contains id = true
            ∧ tp.attempts < max_attempts) := by
  have hperm := List.perm_insertionSort strLe (run.tasks.map Prod.fst)
  have hsort := List.sorted_insertionSort strLe (run.tasks.map Prod.fst)
  constructor
  · intro t hf
    simp only [nextClaimableTask] at hf
    have hpt := List.find?_some hf
    refine ⟨(scheduler_eligible_iff run policy max_attempts t).mp hpt, ?_⟩
    intro id hid helig
    exact find?_min_of_sorted hsort hf id (hperm.mem_iff.mpr hid)
      ((scheduler_eligible_iff run policy max_attempts id).mpr helig)
  · simp only [nextClaimableTask, List.find?_eq_none]
    constructor
    · intro hnone id hid helig
      exact hnone id (hperm.mem_iff.mpr hid)
        ((scheduler_eligible_iff run policy max_attempts id).mpr helig)
    · intro hall id hid helig
      exact hall id (hperm.mem_iff.mp hid)
        ((scheduler_eligible_iff run policy max_attempts id).mp helig)

/-- C7 witness: with `t1` claimable the scheduler returns it (with its
minimality property); with an empty claimable set it returns nothing. -/
theorem next_claimable_task_spec_witness :
    ((∃ tp, findEntry basicRun.tasks "t1" = some tp
        ∧ ({ claimable := ["t1"] } : PolicySnapshot).claimable.contains "t1" = true
        ∧ tp.attempts < 3)
      ∧ ∀ id ∈ basicRun.tasks.map Prod.fst,
          (∃ tp2, findEntry basicRun.tasks id = some tp2
            ∧ ({ claimable := ["t1"] } : PolicySnapshot).claimable.contains id = true
            ∧ tp2.attempts < 3) → strLe "t1" id)
    ∧ nextClaimableTask basicRun {} 3 = none :=
  ⟨(next_claimable_task_spec basicRun { claimable := ["t1"] } 3).1 "t1" (by decide),
   (next_claimable_task_spec basicRun {} 3).2.mpr (by decide)⟩

/-- Lookup after an in-place update at a key. -/
theorem findEntry_updateEntry {α : Type} (l : List (String × α)) (k : String)
    (f : α → α) (t : String) :
    findEntry (updateEntry l k f) t =
      if t = k then (findEntry l k).map f else findEntry l t := by
  induction l with
  | nil => simp [updateEntry, findEntry]
  | cons p rest ih =>
    obtain ⟨k0, v⟩ := p
    by_cases hk : k0 = k
    · subst hk
      by_cases ht : t = k0
      · simp [updateEntry, findEntry, ht]
      · simp [updateEntry, findEntry, ht, Ne.symm ht]
    · by_cases ht : t = k0
      · subst ht
        simp [updateEntry, findEntry, hk, Ne.symm hk]
      · simp [updateEntry, findEntry, hk, ht, Ne.symm ht, ih]

/-- Lookup distributes over list append. -/
theorem findEntry_append {α : Type} (l1 l2 : List (String × α)) (t : String) :
    findEntry (l1 ++ l2) t =
      match findEntry l1 t with
      | some v => some v
      | none => findEntry l2 t := by
  induction l1 with
  | nil => simp [findEntry]
  | cons p rest ih =>
    obtain ⟨k0, v⟩ := p
    by_cases ht : k0 = t <;> simp [findEntry, ht, ih]

/-- An update whose function preserves two task fields preserves the
fields of any looked-up entry. -/
theorem findEntry_update_preserves (P Q : TaskProjection → Bool)
    (l : List (String × TaskProjection)) (k : String)
    (f : TaskProjection → TaskProjection)
    (t : String) (v' : TaskProjection)
    (hfind : findEntry (updateEntry l k f) t = some v')
    (hP : ∀ v, P (f v) = P v) (hQ : ∀ v, Q (f v) = Q v) :
    ∃ v, findEntry l t = some v ∧ P v' = P v ∧ Q v' = Q v := by
  rw [findEntry_updateEntry] at hfind
  by_cases ht : t = k
  · rw [if_pos ht] at hfind
    cases hv : findEntry l k with
    | none => rw [hv] at hfind; simp at hfind
    | some v =>
      rw [hv] at hfind
      simp at hfind
      exact ⟨v, ht ▸ hv, hfind ▸ hP v, hfind ▸ hQ v⟩
  · rw [if_neg ht] at hfind
    exact ⟨v', hfind, rfl, rfl⟩

/-- One projector step changes a task's `closed` flag only through a
`task_closed` event for that task, and its `terminal_failed` flag only
through a `task_failed_terminal` event; freshly registered tasks have
both flags clear. -/
theorem applyEvent_task_flags (s : RunProjection) (ev : EventRow) (t : String)
    (tp' : TaskProjection)
    (hfind : findEntry (applyEvent s ev).tasks t = some tp') :
    (∃ tp, findEntry s.tasks t = some tp
      ∧ (tp'.closed = tp.closed ∨ (ev.event_type = "task_closed" ∧ ev.task_id = some t))
      ∧ (tp'.terminal_failed = tp.terminal_failed
          ∨ (ev.event_type = "task_failed_terminal" ∧ ev.task_id = some t)))
    ∨ (tp'.closed = false ∧ tp'.terminal_failed = false) := by
  unfold applyEvent at hfind
  by_cases h1 : ev.event_type = "task_registered"
  · rw [if_pos h1] at hfind
    cases horl : ev.task_id.orElse (fun _ => (ev.payload_json.get "task_id").bind Json.asStr) with
    | none =>
      rw [horl] at hfind
      exact Or.inl ⟨tp', hfind, Or.inl rfl, Or.inl rfl⟩
    | some id =>
      rw [horl] at hfind
      dsimp only at hfind
      simp only [insertIfAbsent] at hfind
      by_cases hpres : (findEntry s.tasks id).isSome
      · rw [if_pos hpres] at hfind
        exact Or.inl ⟨tp', hfind, Or.inl rfl, Or.inl rfl⟩
      · rw [if_neg hpres, findEntry_append] at hfind
        cases hft : findEntry s.tasks t with
        | some tp =>
          rw [hft] at hfind
          simp at hfind
          exact Or.inl ⟨tp, rfl, Or.inl (by rw [hfind]), Or.inl (by rw [hfind])⟩
        | none =>
          rw [hft] at hfind
          simp only [findEntry] at hfind
          by_cases hit : id = t
          · rw [if_pos hit] at hfind
            simp at hfind
            exact Or.inr ⟨by rw [← hfind], by rw [← hfind]⟩
          · rw [if_neg hit] at hfind
            simp [findEntry] at hfind
  · rw [if_neg h1] at hfind
    by_cases h2 : ev.event_type = "spec_approved"
    · rw [if_pos h2] at hfind
      exact Or.inl ⟨tp', hfind, Or.inl rfl, Or.inl rfl⟩
    · rw [if_neg h2] at hfind
      by_cases h3 : ev.event_type = "checks_approved"
      · rw [if_pos h3] at hfind
        exact Or.inl ⟨tp', hfind, Or.inl rfl, Or.inl rfl⟩
      · rw [if_neg h3] at hfind
        by_cases h4 : ev.event_type = "run_paused" ∨ ev.event_type = "human_input_requested"
        · rw [if_pos h4] at hfind
          exact Or.inl ⟨tp', hfind, Or.inl rfl, Or.inl rfl⟩
        · rw [if_neg h4] at hfind
          by_cases h5 : ev.event_type = "run_resumed"
          · rw [if_pos h5] at hfind
            exact Or.inl ⟨tp', hfind, Or.inl rfl, Or.inl rfl⟩
          · rw [if_neg h5] at hfind
            by_cases h6 : ev.event_type = "spec_question_opened" ∨ ev.event_type = "checks_question_opened"
            · rw [if_pos h6] at hfind
              cases hq : (ev.payload_json.get "question_id").bind Json.asStr with
              | none =>
                rw [hq] at hfind
                exact Or.inl ⟨tp', hfind, Or.inl rfl, Or.inl rfl⟩
              | some qid =>
                rw [hq] at hfind
                exact Or.inl ⟨tp', hfind, Or.inl rfl, Or.inl rfl⟩
            · rw [if_neg h6] at hfind
              by_cases h7 : ev.event_type = "spec_question_resolved" ∨ ev.event_type = "checks_question_resolved"
              · rw [if_pos h7] at hfind
                cases hq : (ev.payload_json.get "question_id").bind Json.asStr with
                | none =>
                  rw [hq] at hfind
                  exact Or.inl ⟨tp', hfind, Or.inl rfl, Or.inl rfl⟩
                | some qid =>
                  rw [hq] at hfind
                  exact Or.inl ⟨tp', hfind, Or.inl rfl, Or.inl rfl⟩
              · rw [if_neg h7] at hfind
                by_cases h8 : ev.event_type = "task_claimed"
                · rw [if_pos h8] at hfind
                  cases htid : ev.task_id with
                  | none =>
                    rw [htid] at hfind
                    exact Or.inl ⟨tp', hfind, Or.inl rfl, Or.inl rfl⟩
                  | some id =>
                    rw [htid] at hfind
                    dsimp only at hfind
                    obtain ⟨v, hv, hc, hf⟩ := findEntry_update_preserves
                      (fun x => x.closed) (fun x => x.terminal_failed) s.tasks id _ t tp' hfind
                      (fun v => rfl) (fun v => rfl)
                    exact Or.inl ⟨v, hv, Or.inl hc, Or.inl hf⟩
                · rw [if_neg h8] at hfind
                  by_cases h9 : ev.event_type = "review_found_issues"
                  · rw [if_pos h9] at hfind
                    cases htid : ev.task_id with
                    | none =>
                      rw [htid] at hfind
                      exact Or.inl ⟨tp', hfind, Or.inl rfl, Or.inl rfl⟩
                    | some id =>
                      rw [htid] at hfind
                      dsimp only at hfind
                      obtain ⟨v, hv, hc, hf⟩ := findEntry_update_preserves
                        (fun x => x.closed) (fun x => x.terminal_failed) s.tasks id _ t tp' hfind
                        (fun v => rfl) (fun v => rfl)
                      exact Or.inl ⟨v, hv, Or.inl hc, Or.inl hf⟩
                  · rw [if_neg h9] at hfind
                    by_cases h10 : ev.event_type = "review_approved"
                    · rw [if_pos h10] at hfind
                      cases htid : ev.task_id with
                      | none =>
                        rw [htid] at hfind
                        exact Or.inl ⟨tp', hfind, Or.inl rfl, Or.inl rfl⟩
                      | some id =>
                        rw [htid] at hfind
                        dsimp only at hfind
                        obtain ⟨v, hv, hc, hf⟩ := findEntry_update_preserves
                          (fun x => x.closed) (fun x => x.terminal_failed) s.tasks id _ t tp' hfind
                          (fun v => rfl) (fun v => rfl)
                        exact Or.inl ⟨v, hv, Or.inl hc, Or.inl hf⟩
                    · rw [if_neg h10] at hfind
                      by_cases h11 : ev.event_type = "checks_reported"
                      · rw [if_pos h11] at hfind
                        cases htid : ev.task_id with
                        | none =>
                          rw [htid] at hfind
                          exact Or.inl ⟨tp', hfind, Or.inl rfl, Or.inl rfl⟩
                        | some id =>
                          rw [htid] at hfind
                          dsimp only at hfind
                          obtain ⟨v, hv, hc, hf⟩ := findEntry_update_preserves
                            (fun x => x.closed) (fun x => x.terminal_failed) s.tasks id _ t tp' hfind
                            (fun v => by dsimp only; split <;> rfl)
                            (fun v => by dsimp only; split <;> rfl)
                          exact Or.inl ⟨v, hv, Or.inl hc, Or.inl hf⟩
                      · rw [if_neg h11] at hfind
                        by_cases h12 : ev.event_type = "merge_succeeded"
                        · rw [if_pos h12] at hfind
                          cases htid : ev.task_id with
                          | none =>
                            rw [htid] at hfind
                            exact Or.inl ⟨tp', hfind, Or.inl rfl, Or.inl rfl⟩
                          | some id =>
                            rw [htid] at hfind
                            dsimp only at hfind
                            obtain ⟨v, hv, hc, hf⟩ := findEntry_update_preserves
                              (fun x => x.closed) (fun x => x.terminal_failed) s.tasks id _ t tp' hfind
                              (fun v => rfl) (fun v => rfl)
                            exact Or.inl ⟨v, hv, Or.inl hc, Or.inl hf⟩
                        · rw [if_neg h12] at hfind
                          by_cases h13 : ev.event_type = "task_closed"
                          · rw [if_pos h13] at hfind
                            cases htid : ev.task_id with
                            | none =>
                              rw [htid] at hfind
                              exact Or.inl ⟨tp', hfind, Or.inl rfl, Or.inl rfl⟩
                            | some id =>
                              rw [htid] at hfind
                              dsimp only at hfind
                              rw [findEntry_updateEntry] at hfind
                              by_cases ht : t = id
                              · rw [if_pos ht] at hfind
                                cases hv : findEntry s.tasks id with
                                | none => rw [hv] at hfind; simp at hfind
                                | some v =>
                                  rw [hv] at hfind
                                  simp at hfind
                                  refine Or.inl ⟨v, ht ▸ hv, Or.inr ⟨h13, ?_⟩, Or.inl ?_⟩
                                  · rw [ht]
                                  · rw [← hfind]
                              · rw [if_neg ht] at hfind
                                exact Or.inl ⟨tp', hfind, Or.inl rfl, Or.inl rfl⟩
                          · rw [if_neg h13] at hfind
                            by_cases h14 : ev.event_type = "task_failed_terminal"
                            · rw [if_pos h14] at hfind
                              cases htid : ev.task_id with
                              | none =>
                                rw [htid] at hfind
                                exact Or.inl ⟨tp', hfind, Or.inl rfl, Or.inl rfl⟩
                              | some id =>
                                rw [htid] at hfind
                                dsimp only at hfind
                                rw [findEntry_updateEntry] at hfind
                                by_cases ht : t = id
                                · rw [if_pos ht] at hfind
                                  cases hv : findEntry s.tasks id with
                                  | none => rw [hv] at hfind; simp at hfind
                                  | some v =>
                                    rw [hv] at hfind
                                    simp at hfind
                                    refine Or.inl ⟨v, ht ▸ hv, Or.inl ?_, Or.inr ⟨h14, ?_⟩⟩
                                    · rw [← hfind]
                                    · rw [ht]
                                · rw [if_neg ht] at hfind
                                  exact Or.inl ⟨tp', hfind, Or.inl rfl, Or.inl rfl⟩
                            · rw [if_neg h14] at hfind
                              by_cases h15 : ev.event_type = "attempt_interrupted"
                              · rw [if_pos h15] at hfind
                                cases htid : ev.task_id with
                                | none =>
                                  rw [htid] at hfind
                                  exact Or.inl ⟨tp', hfind, Or.inl rfl, Or.inl rfl⟩
                                | some id =>
                                  rw [htid] at hfind
                                  dsimp only at hfind
                                  obtain ⟨v, hv, hc, hf⟩ := findEntry_update_preserves
                                    (fun x => x.closed) (fun x => x.terminal_failed) s.tasks id _ t tp' hfind
                                    (fun v => rfl) (fun v => rfl)
                                  exact Or.inl ⟨v, hv, Or.inl hc, Or.inl hf⟩
                              · rw [if_neg h15] at hfind
                                by_cases h16 : ev.event_type = "run_completed" ∨ ev.event_type = "run_failed" ∨ ev.event_type = "run_cancelled"
                                · rw [if_pos h16] at hfind
                                  exact Or.inl ⟨tp', hfind, Or.inl rfl, Or.inl rfl⟩
                                · rw [if_neg h16] at hfind
                                  exact Or.inl ⟨tp', hfind, Or.inl rfl, Or.inl rfl⟩

/-- A replayed task has `closed` set only if the history holds a
`task_closed` event for it, and `terminal_failed` only if it holds a
`task_failed_terminal` event (relative to any start state). -/
theorem replay_task_flags (h : List EventRow) :
    ∀ (s : RunProjection) (t : String) (tp' : TaskProjection),
    findEntry ((h.foldl applyEvent s).tasks) t = some tp' →
    (tp'.closed = true →
      (∃ tp, findEntry s.tasks t = some tp ∧ tp.closed = true)
      ∨ ∃ ev ∈ h, ev.event_type = "task_closed" ∧ ev.task_id = some t)
    ∧ (tp'.terminal_failed = true →
      (∃ tp, findEntry s.tasks t = some tp ∧ tp.terminal_failed = true)
      ∨ ∃ ev ∈ h, ev.event_type = "task_failed_terminal" ∧ ev.task_id = some t) := by
  induction h with
  | nil =>
    intro s t tp' hfind
    exact ⟨fun hc => Or.inl ⟨tp', hfind, hc⟩, fun hf => Or.inl ⟨tp', hfind, hf⟩⟩
  | cons e rest ih =>
    intro s t tp' hfind
    rw [List.foldl_cons] at hfind
    have hrest := ih (applyEvent s e) t tp' hfind
    constructor
    · intro hc
      rcases hrest.1 hc with ⟨tp1, hfind1, hc1⟩ | ⟨ev, hev, hprop⟩
      · rcases applyEvent_task_flags s e t tp1 hfind1 with ⟨tp0, hf0, hcd, _⟩ | ⟨hcf, _⟩
        · rcases hcd with heq | hevt
          · exact Or.inl ⟨tp0, hf0, heq.symm.trans hc1⟩
          · exact Or.inr ⟨e, List.mem_cons_self e rest, hevt⟩
        · rw [hcf] at hc1
          exact absurd hc1 (by simp)
      · exact Or.inr ⟨ev, List.mem_cons_of_mem e hev, hprop⟩
    · intro hf
      rcases hrest.2 hf with ⟨tp1, hfind1, hf1⟩ | ⟨ev, hev, hprop⟩
      · rcases applyEvent_task_flags s e t tp1 hfind1 with ⟨tp0, hf0, _, hfd⟩ | ⟨_, hff⟩
        · rcases hfd with heq | hevt
          · exact Or.inl ⟨tp0, hf0, heq.symm.trans hf1⟩
          · exact Or.inr ⟨e, List.mem_cons_self e rest, hevt⟩
        · rw [hff] at hf1
          exact absurd hf1 (by simp)
      · exact Or.inr ⟨ev, List.mem_cons_of_mem e hev, hprop⟩

/-- C3 amended: for every history accepted event-by-event by
`validate_transition` in which no task id receives both a `task_closed`
and a `task_failed_terminal` event, the replayed projection never has a
task with both `closed` and `terminal_failed` set. (The validator alone
does not guarantee this: see the counterexample, a fully validated
history whose replay sets both flags on one task, because
`validate_transition` has no rule for `task_failed_terminal` at all.) -/
theorem validated_history_no_closed_and_failed (h : List EventRow)
    (_hval : validatedHistory h = true)
    (hsep : ∀ t : String,
      ¬((∃ ev ∈ h, ev.event_type = "task_closed" ∧ ev.task_id = some t)
        ∧ (∃ ev ∈ h, ev.event_type = "task_failed_terminal" ∧ ev.task_id = some t))) :
    ∀ (t : String) (tp : TaskProjection),
      findEntry (RunProjection.replay h).tasks t = some tp →
      ¬(tp.closed = true ∧ tp.terminal_failed = true) := by
  intro t tp hfind hboth
  obtain ⟨hc, hf⟩ := hboth
  have hflags := replay_task_flags h {} t tp hfind
  rcases hflags.1 hc with ⟨tp0, hf0, _⟩ | hev1
  · simp [findEntry] at hf0
  · rcases hflags.2 hf with ⟨tp0, hf0, _⟩ | hev2
    · simp [findEntry] at hf0
    · exact hsep t ⟨hev1, hev2⟩

/-- C3 counterexample: the history `task_registered t1`,
`task_failed_terminal t1`, `merge_succeeded t1 (attempt 1)`,
`task_closed t1 (attempt 1)` is accepted event-by-event by
`validate_transition`, yet its replay has task `t1` with `closed` and
`terminal_failed` both true. -/
theorem closed_and_terminal_failed_reachable_cex :
    validatedHistory [regT1Ev, failT1Ev, mergeT1Ev, closeT1Ev] = true
    ∧ (findEntry (RunProjection.replay [regT1Ev, failT1Ev, mergeT1Ev, closeT1Ev]).tasks "t1").map
        (fun tp => (tp.closed, tp.terminal_failed)) = some (true, true) := by
  decide

/-- C3 amended witness: a validated history without a double terminal
task event keeps the invariant at its replayed `t1` entry. -/
theorem validated_history_no_closed_and_failed_witness :
    ¬(({ id := "t1", objective := "o", merged_attempts := [1], closed := true,
         claimed := false : TaskProjection }).closed = true
      ∧ ({ id := "t1", objective := "o", merged_attempts := [1], closed := true,
           claimed := false : TaskProjection }).terminal_failed = true) :=
  validated_history_no_closed_and_failed [regT1Ev, mergeT1Ev, closeT1Ev] (by decide)
    (by
      intro t hcontra
      obtain ⟨_, ⟨ev, hev, hty, _⟩⟩ := hcontra
      simp [regT1Ev, mergeT1Ev, closeT1Ev] at hev
      rcases hev with h | h | h <;> rw [h] at hty <;> simp at hty)
    "t1"
    { id := "t1", objective := "o", merged_attempts := [1], closed := true,
      claimed := false }
    (by decide)

/-- Membership in a conditional singleton chunk of given facts. -/
theorem mem_ite_singleton {c : Prop} [Decidable c] {f x : PFact} :
    f ∈ (if c then [x] else ([] : List PFact)) ↔ c ∧ f = x := by
  split <;> simp_all

/-- A key occurs in the key list exactly when lookup finds an entry. -/
theorem mem_keys_iff_findEntry {α : Type} (l : List (String × α)) (k : String) :
    k ∈ l.map Prod.fst ↔ (findEntry l k).isSome = true := by
  induction l with
  | nil => simp [findEntry]
  | cons p rest ih =>
    obtain ⟨k0, v⟩ := p
    by_cases hk : k0 = k
    · subst hk; simp [findEntry]
    · simp [findEntry, hk, Ne.symm hk, ih]

/-- With distinct keys, every listed entry is what lookup returns. -/
theorem findEntry_eq_some_of_mem {α : Type} {l : List (String × α)} {k : String}
    {v : α} (hnd : (l.map Prod.fst).Nodup) (hmem : (k, v) ∈ l) :
    findEntry l k = some v := by
  induction l with
  | nil => simp at hmem
  | cons p rest ih =>
    obtain ⟨k0, v0⟩ := p
    rcases List.mem_cons.mp hmem with heq | hmem2
    · cases heq
      simp [findEntry]
    · have hk : k0 ≠ k := by
        intro hk0
        subst hk0
        have : k0 ∈ rest.map Prod.fst := List.mem_map.mpr ⟨(k0, v), hmem2, rfl⟩
        exact (List.nodup_cons.mp hnd).1 this
      simp [findEntry, hk, ih (List.nodup_cons.mp hnd).2 hmem2]

/-- A successful lookup result is a listed entry. -/
theorem mem_of_findEntry_eq_some {α : Type} {l : List (String × α)} {k : String}
    {v : α} (hf : findEntry l k = some v) : (k, v) ∈ l := by
  induction l with
  | nil => simp [findEntry] at hf
  | cons p rest ih =>
    obtain ⟨k0, v0⟩ := p
    by_cases hk : k0 = k
    · subst hk
      simp [findEntry] at hf
      simp [hf]
    · simp [findEntry, hk] at hf
      exact List.mem_cons_of_mem _ (ih hf)

/-- The `spec-approved` atom is given exactly when the projection has
`spec_approved` set. -/
theorem mem_policyGivens_specApproved (run : RunProjection) (plan : List PlanTask) :
    PFact.specApproved ∈ policyGivens run plan ↔ run.spec_approved = true := by
  simp [policyGivens, planGivens, lifecycleGivens, mem_ite_singleton,
        List.mem_flatMap, List.mem_append, List.mem_map]

/-- The `checks-approved` atom is given exactly when the projection
has `checks_approved` set. -/
theorem mem_policyGivens_checksApproved (run : RunProjection) (plan : List PlanTask) :
    PFact.checksApproved ∈ policyGivens run plan ↔ run.checks_approved = true := by
  simp [policyGivens, planGivens, lifecycleGivens, mem_ite_singleton,
        List.mem_flatMap, List.mem_append, List.mem_map]

/-- The `no-open-questions` atom is given exactly when the projection
has no open questions. -/
theorem mem_policyGivens_noOpenQuestions (run : RunProjection) (plan : List PlanTask) :
    PFact.noOpenQuestions ∈ policyGivens run plan ↔ run.open_questions = [] := by
  simp [policyGivens, planGivens, lifecycleGivens, mem_ite_singleton,
        List.mem_flatMap, List.mem_append, List.mem_map, List.isEmpty_iff]

/-- The `run-active` atom is given exactly when the run is neither
paused nor terminal. -/
theorem mem_policyGivens_runActive (run : RunProjection) (plan : List PlanTask) :
    PFact.runActive ∈ policyGivens run plan ↔
      run.paused = false ∧ run.terminal = none := by
  simp [policyGivens, planGivens, lifecycleGivens, mem_ite_singleton,
        List.mem_flatMap, List.mem_append, List.mem_map, Option.isNone_iff_eq_none,
        Bool.not_eq_true']

/-- The `(unclaimed t)` atom is given exactly for an unclaimed
registered task with id field `t`. -/
theorem mem_policyGivens_unclaimed (run : RunProjection) (plan : List PlanTask)
    (t : String) :
    PFact.unclaimed t ∈ policyGivens run plan ↔
      ∃ e ∈ run.tasks, (e : String × TaskProjection).2.id = t
        ∧ e.2.claimed = false := by
  simp [policyGivens, planGivens, lifecycleGivens, mem_ite_singleton,
        List.mem_flatMap, List.mem_append, List.mem_map, Bool.not_eq_true']
  aesop

/-- The `(unclosed t)` atom is given exactly for an unclosed
registered task with id field `t`. -/
theorem mem_policyGivens_unclosed (run : RunProjection) (plan : List PlanTask)
    (t : String) :
    PFact.unclosed t ∈ policyGivens run plan ↔
      ∃ e ∈ run.tasks, (e : String × TaskProjection).2.id = t
        ∧ e.2.closed = false := by
  simp [policyGivens, planGivens, lifecycleGivens, mem_ite_singleton,
        List.mem_flatMap, List.mem_append, List.mem_map, Bool.not_eq_true']
  aesop

/-- The `(unfailed t)` atom is given exactly for a registered task with
id field `t` that is not terminally failed. -/
theorem mem_policyGivens_unfailed (run : RunProjection) (plan : List PlanTask)
    (t : String) :
    PFact.unfailed t ∈ policyGivens run plan ↔
      ∃ e ∈ run.tasks, (e : String × TaskProjection).2.id = t
        ∧ e.2.terminal_failed = false := by
  simp [policyGivens, planGivens, lifecycleGivens, mem_ite_singleton,
        List.mem_flatMap, List.mem_append, List.mem_map, Bool.not_eq_true']
  aesop

/-- The `(closed d)` atom is given exactly for a closed registered task
with id field `d`. -/
theorem mem_policyGivens_closed (run : RunProjection) (plan : List PlanTask)
    (d : String) :
    PFact.closed d ∈ policyGivens run plan ↔
      ∃ e ∈ run.tasks, (e : String × TaskProjection).2.id = d
        ∧ e.2.closed = true := by
  simp [policyGivens, planGivens, lifecycleGivens, mem_ite_singleton,
        List.mem_flatMap, List.mem_append, List.mem_map]
  aesop

/-- The `(task t)` atom is given by the plan or by registration. -/
theorem mem_policyGivens_task (run : RunProjection) (plan : List PlanTask)
    (t : String) :
    PFact.task t ∈ policyGivens run plan ↔
      (∃ pt ∈ plan, (pt : PlanTask).id = t)
      ∨ ∃ e ∈ run.tasks, (e : String × TaskProjection).2.id = t := by
  simp [policyGivens, planGivens, lifecycleGivens, mem_ite_singleton,
        List.mem_flatMap, List.mem_append, List.mem_map]
  aesop

/-- The `(ready t)` atom is given by the plan (dependency-free task) or
by the bridge when every projected dependency is closed. -/
theorem mem_policyGivens_ready (run : RunProjection) (plan : List PlanTask)
    (t : String) :
    PFact.ready t ∈ policyGivens run plan ↔
      (∃ pt ∈ plan, (pt : PlanTask).id = t ∧ pt.dependencies = [])
      ∨ ∃ e ∈ run.tasks, (e : String × TaskProjection).2.id = t
          ∧ (e.2.dependencies.all (fun dep =>
              ((findEntry run.tasks dep).map (fun d => d.closed)).getD false)) = true := by
  simp [policyGivens, planGivens, lifecycleGivens, mem_ite_singleton,
        List.mem_flatMap, List.mem_append, List.mem_map, List.isEmpty_iff]
  aesop

/-- Membership in the derived claimable set splits into registration
and rule derivability. -/
theorem claimable_contains_iff (run : RunProjection) (plan : List PlanTask)
    (t : String) :
    ((derivePolicyState run plan).claimable.contains t = true ↔
      t ∈ run.tasks.map Prod.fst
      ∧ claimableProvable (policyGivens run plan) plan t = true) := by
  rw [List.elem_iff]
  simp [derivePolicyState, List.mem_filter]

/-- C1: the policy deriver (`derive_policy_state`, the rule-engine
bridge the supervisor loop uses) marks `t` claimable exactly when the
run is not terminal, `spec_approved` and `checks_approved` hold, no
question is open, the run is not paused, `t` is registered and neither
claimed nor closed nor terminally failed, and every dependency of `t`
maps to a closed task; in particular a task is never claimable while
`checks_approved` is false. Hypotheses: the projection's task map is
well formed (each entry's id field equals its key, keys distinct, as
`task_registered` guarantees) and the translated plan's dependency
facts agree with the registered dependencies (the registration events
are generated from that same plan). -/
theorem policy_claimable_iff_gates (run : RunProjection) (plan : List PlanTask) (t : String)
    (hid : ∀ e ∈ run.tasks, (e : String × TaskProjection).2.id = e.1)
    (hnd : (run.tasks.map Prod.fst).Nodup)
    (hplan : ∀ pt ∈ plan, ∀ tp, findEntry run.tasks (pt : PlanTask).id = some tp →
        pt.dependencies = tp.dependencies) :
    (derivePolicyState run plan).claimable.contains t = true ↔
      (run.spec_approved = true ∧ run.checks_approved = true
        ∧ run.open_questions = [] ∧ run.paused = false ∧ run.terminal = none
        ∧ ∃ tp, findEntry run.tasks t = some tp
            ∧ tp.claimed = false ∧ tp.closed = false ∧ tp.terminal_failed = false
            ∧ ∀ d ∈ tp.dependencies, ∃ dt, findEntry run.tasks d = some dt
                ∧ dt.closed = true) := by
  have hfix : ∀ {t' : String} {e : String × TaskProjection},
      e ∈ run.tasks → e.2.id = t' → findEntry run.tasks t' = some e.2 := by
    intro t' e he hide
    have h1 : e.1 = t' := (hid e he).symm.trans hide
    apply findEntry_eq_some_of_mem hnd
    rw [← h1]
    exact he
  rw [claimable_contains_iff]
  simp only [claimableProvable, readyProvable, Bool.and_eq_true, Bool.or_eq_true,
    List.elem_iff, List.any_eq_true]
  constructor
  · rintro ⟨hkeys, ⟨⟨⟨⟨⟨⟨⟨⟨htask, hready⟩, hspec⟩, hchecks⟩, hnoq⟩, hactive⟩,
      huncl⟩, hunclo⟩, hunf⟩⟩
    obtain ⟨tp, htp⟩ := Option.isSome_iff_exists.mp
      ((mem_keys_iff_findEntry run.tasks t).mp hkeys)
    obtain ⟨hpause, hterm⟩ := (mem_policyGivens_runActive run plan).mp hactive
    refine ⟨(mem_policyGivens_specApproved run plan).mp hspec,
      (mem_policyGivens_checksApproved run plan).mp hchecks,
      (mem_policyGivens_noOpenQuestions run plan).mp hnoq,
      hpause, hterm, tp, htp, ?_, ?_, ?_, ?_⟩
    · obtain ⟨e, he, hide, hP⟩ := (mem_policyGivens_unclaimed run plan t).mp huncl
      have := hfix he hide
      rw [htp] at this
      injection this with h2
      rw [h2]
      exact hP
    · obtain ⟨e, he, hide, hP⟩ := (mem_policyGivens_unclosed run plan t).mp hunclo
      have := hfix he hide
      rw [htp] at this
      injection this with h2
      rw [h2]
      exact hP
    · obtain ⟨e, he, hide, hP⟩ := (mem_policyGivens_unfailed run plan t).mp hunf
      have := hfix he hide
      rw [htp] at this
      injection this with h2
      rw [h2]
      exact hP
    · -- dependencies all closed
      rcases hready with hmem | ⟨pt, hpt, hcond⟩
      · rcases (mem_policyGivens_ready run plan t).mp hmem with
          ⟨pt, hpt, hptid, hptdep⟩ | ⟨e, he, hide, hall⟩
        · have hdeps : pt.dependencies = tp.dependencies := by
            apply hplan pt hpt
            rw [hptid]
            exact htp
          rw [← hdeps, hptdep]
          intro d hd
          simp at hd
        · have := hfix he hide
          rw [htp] at this
          injection this with h2
          rw [← h2] at hall
          intro d hd
          have hdd := List.all_eq_true.mp hall d hd
          cases hfd : findEntry run.tasks d with
          | none => rw [hfd] at hdd; simp at hdd
          | some dt =>
            rw [hfd] at hdd
            simp at hdd
            exact ⟨dt, rfl, hdd⟩
      · -- plan rule fired
        simp only [Bool.and_eq_true, beq_iff_eq, Bool.not_eq_true',
          List.all_eq_true] at hcond
        obtain ⟨⟨hptid, hptne⟩, hcl⟩ := hcond
        have hdeps : pt.dependencies = tp.dependencies := by
          apply hplan pt hpt
          rw [hptid]
          exact htp
        rw [← hdeps]
        intro d hd
        have hdmem := hcl d hd
        rw [List.elem_iff] at hdmem
        obtain ⟨e, he, hide, hP⟩ := (mem_policyGivens_closed run plan d).mp hdmem
        exact ⟨e.2, hfix he hide, hP⟩
  · rintro ⟨hspec, hchecks, hq, hpause, hterm, tp, htp, hclm, hclo, hfail, hdeps⟩
    have hmem := mem_of_findEntry_eq_some htp
    have hide : (t, tp).2.id = t := hid (t, tp) hmem
    refine ⟨(mem_keys_iff_findEntry run.tasks t).mpr (by rw [htp]; rfl),
      ⟨⟨⟨⟨⟨⟨⟨⟨(mem_policyGivens_task run plan t).mpr (Or.inr ⟨(t, tp), hmem, hide⟩),
        Or.inl ((mem_policyGivens_ready run plan t).mpr
          (Or.inr ⟨(t, tp), hmem, hide, List.all_eq_true.mpr ?_⟩))⟩,
        (mem_policyGivens_specApproved run plan).mpr hspec⟩,
        (mem_policyGivens_checksApproved run plan).mpr hchecks⟩,
        (mem_policyGivens_noOpenQuestions run plan).mpr hq⟩,
        (mem_policyGivens_runActive run plan).mpr ⟨hpause, hterm⟩⟩,
        (mem_policyGivens_unclaimed run plan t).mpr ⟨(t, tp), hmem, hide, hclm⟩⟩,
        (mem_policyGivens_unclosed run plan t).mpr ⟨(t, tp), hmem, hide, hclo⟩⟩,
        (mem_policyGivens_unfailed run plan t).mpr ⟨(t, tp), hmem, hide, hfail⟩⟩⟩
    intro d hd
    obtain ⟨dt, hfd, hdc⟩ := hdeps d hd
    rw [hfd]
    simp [hdc]

/-- C1 witness at a one-task projection with all gates open. -/
theorem policy_claimable_iff_gates_witness :
    (derivePolicyState basicRun
        [{ id := "t1", dependencies := [] }]).claimable.contains "t1" = true ↔
      (basicRun.spec_approved = true ∧ basicRun.checks_approved = true
        ∧ basicRun.open_questions = [] ∧ basicRun.paused = false
        ∧ basicRun.terminal = none
        ∧ ∃ tp, findEntry basicRun.tasks "t1" = some tp
            ∧ tp.claimed = false ∧ tp.closed = false ∧ tp.terminal_failed = false
            ∧ ∀ d ∈ tp.dependencies, ∃ dt, findEntry basicRun.tasks d = some dt
                ∧ dt.closed = true) :=
  policy_claimable_iff_gates basicRun [{ id := "t1", dependencies := [] }] "t1" (by decide) (by decide)
    (by
      intro pt hpt tp htp
      simp at hpt
      subst hpt
      simp [basicRun, findEntry] at htp
      subst htp
      rfl)
